import Mathlib

/-!
Verification of the Gymapp workout tracker (src/app.py) against its
natural-language specification.  The Python source is shallowly embedded:
weights are modelled as exact rationals `ℚ`, reps as integers `ℤ`, Python's
`round(x, 1)` as exact round-half-to-even at one decimal, and the Supabase
tables as explicit lists passed to the functions that query them.
-/

set_option autoImplicit false

namespace Gymapp

/-- Model of Python `str.lower()` restricted to the characters appearing in
this repository: ASCII letters plus the Swedish letters Ä, Ö, Å. -/
def pyLowerChar (c : Char) : Char :=
  if c = 'Ä' then 'ä' else if c = 'Ö' then 'ö' else if c = 'Å' then 'å'
  else c.toLower

/-- Model of Python `str.lower()` on a whole string. -/
def pyLower (s : String) : String :=
  String.mk (s.toList.map pyLowerChar)

/-- Contiguous-occurrence test on character lists: does `needle` occur as a
contiguous sublist of the second argument? -/
def occursIn (needle : List Char) : List Char → Bool
  | [] => needle.isEmpty
  | c :: t => needle.isPrefixOf (c :: t) || occursIn needle t

/-- Model of the Python substring test `needle in hay`. -/
def strContains (hay needle : String) : Bool :=
  occursIn needle.toList hay.toList

/-- Model of Python's two-argument `max(a, b)`: `a` when `a ≥ b`, else `b`. -/
def pymax (a b : ℚ) : ℚ :=
  if b ≤ a then a else b

/-- Model of Python `round` to an integer: round half to even (banker's
rounding), exactly, over `ℚ`. -/
def pyRound (q : ℚ) : ℤ :=
  let f := ⌊q⌋
  let r := q - (f : ℚ)
  if r < 1/2 then f
  else if 1/2 < r then f + 1
  else if f % 2 = 0 then f else f + 1

/-- Model of Python `round(x, 1)`: round half to even at one decimal place. -/
def rnd1 (q : ℚ) : ℚ :=
  (pyRound (q * 10) : ℚ) / 10

/-- Numeric value of a list of decimal digit characters. -/
def digitsVal (ds : List Char) : ℕ :=
  ds.foldl (fun a c => a * 10 + (c.toNat - 48)) 0

/-- Model of `re.search(r"(\d+(\.\d+)?)", s)` followed by `float(...)`:
scan for the first run of digits, optionally followed by a dot and a further
run of digits, and return its numeric value.  `none` when no digit occurs. -/
def firstNumber : List Char → Option ℚ
  | [] => none
  | c :: cs =>
    if c.isDigit then
      let ds := (c :: cs).takeWhile Char.isDigit
      let rest := (c :: cs).dropWhile Char.isDigit
      match rest with
      | '.' :: r2 =>
        let fs := r2.takeWhile Char.isDigit
        if fs.isEmpty then some (digitsVal ds)
        else some ((digitsVal ds : ℚ) + (digitsVal fs : ℚ) / (10 : ℚ) ^ fs.length)
      | _ => some (digitsVal ds)
    else firstNumber cs

/-- Row of the `exercises` table as seen by the progression engine:
a name and an optional coaching cue (`NULL` modelled as `none`). -/
structure Exercise where
  name : String
  cue : Option String
deriving Repr, DecidableEq

/-- One entry of the compact history fed to `propose_weight`:
exercise name, last weight used, and the reps achieved per set. -/
structure HEntry where
  exercise : String
  weight : ℚ
  reps : List ℤ
deriving Repr, DecidableEq

/-- Embeds `is_lower_body` (src/app.py lines 112-115): case-insensitive
substring match of a fixed keyword list against the exercise name. -/
def is_lower_body (name : String) : Bool :=
  let low := pyLower name
  let keys := ["böj", "squat", "mark", "lunges", "vadpress", "hip", "thrust",
               "pull-through", "calf"]
  keys.any fun k => strContains low k

/-- Embeds `double_progression_bump` (src/app.py lines 123-125):
+5 kg for lower-body exercises, else +2.5 kg. -/
def double_progression_bump (ex_name : String) : ℚ :=
  if is_lower_body ex_name then 5 else 5/2

/-- Embeds the baseline lookup of `propose_weight` (src/app.py lines 183-207):
the weight of the most recent history entry matching the exercise name; when
none matches, the first number parsed from the exercise's cue text (the cue
being fetched from the `exercises` table, modelled by the list `exs`),
defaulting to 0. -/
def baseline_of (exs : List Exercise) (ex_name : String) (history : List HEntry) : ℚ :=
  match history.find? (fun h => h.exercise = ex_name) with
  | some h => h.weight
  | none =>
    match exs.find? (fun e => e.name = ex_name) with
    | some e =>
      match e.cue with
      | some c => if c = "" then 0 else
          match firstNumber c.toList with
          | some q => q
          | none => 0
      | none => 0
    | none => 0

/-- Embeds the reps of the most recent matching history entry
(`last_all_sets` in src/app.py lines 185-190); `[]` when no entry matches. -/
def last_sets_of (ex_name : String) (history : List HEntry) : List ℤ :=
  match history.find? (fun h => h.exercise = ex_name) with
  | some h => h.reps
  | none => []

/-- Embeds the streak loop of `propose_weight` (src/app.py lines 212-218):
walk the history from most recent backward; an entry for another exercise is
skipped; a matching entry with every set strictly below `rep_min` increments
the streak; the first matching entry breaking the pattern stops the walk. -/
def under_min_streak (ex_name : String) (rep_min : ℤ) : List HEntry → ℕ
  | [] => 0
  | h :: t =>
    if h.exercise = ex_name then
      if h.reps.all (fun r => decide (r < rep_min)) then
        under_min_streak ex_name rep_min t + 1
      else 0
    else under_min_streak ex_name rep_min t

/-- Embeds the backoff step (src/app.py lines 219-220): with a streak of two
or more, multiply by 0.95 and round to one decimal. -/
def apply_backoff (ex_name : String) (rep_min : ℤ) (history : List HEntry) (w : ℚ) : ℚ :=
  if 2 ≤ under_min_streak ex_name rep_min history then rnd1 (w * (19/20)) else w

/-- Embeds the bump step (src/app.py lines 222-224): if the most recent
matching entry has a non-empty reps list with every set at or above
`rep_max`, add the increment and round to one decimal. -/
def apply_bump (ex_name : String) (rep_max : ℤ) (history : List HEntry) (w : ℚ) : ℚ :=
  let ls := last_sets_of ex_name history
  if (!ls.isEmpty && ls.all fun r => decide (rep_max ≤ r)) then
    rnd1 (w + double_progression_bump ex_name)
  else w

/-- Embeds the deload step (src/app.py lines 227-228): in program week 12
(zero-based index 11), multiply by 0.6 and round to one decimal. -/
def apply_deload (week_idx : ℤ) (w : ℚ) : ℚ :=
  if week_idx + 1 = 12 then rnd1 (w * (3/5)) else w

/-- Embeds `propose_weight` (src/app.py lines 176-230): baseline, backoff,
bump, deload, floored at 0.  The `exs` parameter models the `exercises`
table the Python function queries for the no-history cue fallback. -/
def propose_weight (exs : List Exercise) (ex_name : String) (rep_min rep_max : ℤ)
    (week_idx : ℤ) (history : List HEntry) : ℚ :=
  pymax (apply_deload week_idx
          (apply_bump ex_name rep_max history
            (apply_backoff ex_name rep_min history
              (baseline_of exs ex_name history)))) 0

/-- Spec-side reformulation of the backoff walk, following the claim's words:
the streak is the number of consecutive sessions for this exercise, counted
from the most recent one, in which every set's reps are strictly below
`rep_min`. -/
def streak_spec (ex_name : String) (rep_min : ℤ) (history : List HEntry) : ℕ :=
  ((history.filter fun h => decide (h.exercise = ex_name)).takeWhile
    fun h => h.reps.all fun r => decide (r < rep_min)).length

/-! ### Program generator (seed_program, src/app.py lines 375-529) -/

/-- Python-dict update: replace the value of an existing key in place,
otherwise append the pair. -/
def dict_upd : List (String × String) → String × String → List (String × String)
  | [], p => [p]
  | q :: t, p => if q.1 = p.1 then p :: t else q :: dict_upd t p

/-- Python-dict construction from a list of pairs: later duplicates overwrite
the value but keep the first occurrence's position. -/
def dict_of (l : List (String × String)) : List (String × String) :=
  l.foldl dict_upd []

/-- Python-dict lookup. -/
def dict_find (d : List (String × String)) (k : String) : Option String :=
  (d.find? fun kv => kv.1 = k).map (·.2)

/-- Embeds `_resolve` (src/app.py lines 389-401): first alias with an exact
key match wins; otherwise the first alias that is a case-insensitive
substring of some catalog name wins, in catalog order. -/
def resolve (d : List (String × String)) (aliases : List String) : Option String :=
  match aliases.findSome? (fun a => dict_find d a) with
  | some v => some v
  | none =>
    let lowmap := dict_of (d.map fun kv => (pyLower kv.1, kv.2))
    aliases.findSome? fun a =>
      lowmap.findSome? fun kv =>
        if strContains kv.1 (pyLower a) then some kv.2 else none

/-- One row of a weekly template: display name, base-lift flag, baseline set
count, alias list. -/
structure TplRow where
  name : String
  is_base : Bool
  sets_n : ℤ
  aliases : List String
deriving Repr, DecidableEq

/-- Canonical day identifiers used against the database
(src/app.py line 48). -/
def DAY_CANON : List String := ["Upper A", "Lower A", "Upper B", "Lower B"]

/-- Embeds `base_template` (src/app.py lines 404-442), the weekly template
for weeks 1-4. -/
def base_template (day : String) : List TplRow :=
  if day = "Upper A" then
    [⟨"Lutande hantelpress", true, 4, ["Lutande hantelpress", "Lutande press"]⟩,
     ⟨"Kabel-flyes (hög→låg)", false, 3, ["Kabel-flyes (hög→låg)", "Kabel-flyes hög", "Kabel flyes hög"]⟩,
     ⟨"Enarms kabelpress", false, 3, ["Enarms kabelpress", "Kabelpress"]⟩,
     ⟨"Enarms hantelrodd", false, 3, ["Enarms hantelrodd", "Hantelrodd"]⟩,
     ⟨"Sidolyft hantlar", false, 3, ["Sidolyft hantlar", "Sidolyft"]⟩,
     ⟨"Triceps pushdown", false, 3, ["Triceps pushdown", "Pushdown"]⟩]
  else if day = "Lower A" then
    [⟨"Knäböj", true, 4, ["Knäböj", "Böj", "Squat"]⟩,
     ⟨"Raka marklyft (RDL)", true, 4, ["Raka marklyft (RDL)", "RDL", "Raka marklyft"]⟩,
     ⟨"Bulgarian split squat", false, 3, ["Bulgarian split squat", "Bulgarian"]⟩,
     ⟨"Kabel pull-through", false, 3, ["Kabel pull-through", "Pull-through"]⟩,
     ⟨"Vadpress", false, 3, ["Vadpress", "Calf raise"]⟩,
     ⟨"Kabel-crunch", false, 3, ["Kabel-crunch", "Cable crunch"]⟩]
  else if day = "Upper B" then
    [⟨"Hantelpress plan bänk", true, 4, ["Hantelpress plan bänk", "Hantelpress"]⟩,
     ⟨"Kabel-flyes (låg→hög)", false, 3, ["Kabel-flyes (låg→hög)", "Kabel-flyes låg", "Kabel flyes låg"]⟩,
     ⟨"Lutande kabelpress", false, 3, ["Lutande kabelpress", "Kabelpress"]⟩,
     ⟨"Sittande kabelrodd", false, 3, ["Sittande kabelrodd", "Kabelrodd"]⟩,
     ⟨"Face pull", false, 3, ["Face pull", "Facepull"]⟩,
     ⟨"Axelpress hantlar", false, 3, ["Axelpress hantlar", "Axelpress"]⟩,
     ⟨"Bicepscurl hantlar", false, 3, ["Bicepscurl hantlar", "Bicepscurl"]⟩]
  else if day = "Lower B" then
    [⟨"Marklyft", true, 3, ["Marklyft", "Mark"]⟩,
     ⟨"Frontböj", true, 3, ["Frontböj", "Front squat", "Goblet squat", "Goblet"]⟩,
     ⟨"Hip thrust", true, 4, ["Hip thrust", "Hipthrust"]⟩,
     ⟨"Bakåtlunges", false, 3, ["Bakåtlunges", "Lunges bak"]⟩,
     ⟨"Vadpress", false, 3, ["Vadpress", "Calf raise"]⟩,
     ⟨"Kabel woodchop", false, 3, ["Kabel woodchop", "Woodchop"]⟩]
  else []

/-- Embeds `var_template` (src/app.py lines 445-479), the weekly template
for weeks 5-12. -/
def var_template (day : String) : List TplRow :=
  if day = "Upper A" then
    [⟨"Lutande hantelpress", true, 4, ["Lutande hantelpress", "Lutande press"]⟩,
     ⟨"Kabel-flyes (låg→hög)", false, 3, ["Kabel-flyes (låg→hög)", "Kabel-flyes låg", "Kabel flyes låg"]⟩,
     ⟨"Lutande kabelpress", false, 3, ["Lutande kabelpress", "Kabelpress"]⟩,
     ⟨"Sittande kabelrodd", false, 3, ["Sittande kabelrodd", "Kabelrodd"]⟩,
     ⟨"Sidolyft hantlar", false, 3, ["Sidolyft hantlar", "Sidolyft"]⟩,
     ⟨"Triceps pushdown", false, 3, ["Triceps pushdown", "Pushdown"]⟩]
  else if day = "Lower A" then
    [⟨"Knäböj", true, 4, ["Knäböj", "Böj", "Squat"]⟩,
     ⟨"Raka marklyft (RDL)", true, 4, ["Raka marklyft (RDL)", "RDL", "Raka marklyft"]⟩,
     ⟨"Bakåtlunges", false, 3, ["Bakåtlunges", "Lunges bak"]⟩,
     ⟨"Kabel pull-through", false, 3, ["Kabel pull-through", "Pull-through"]⟩,
     ⟨"Vadpress", false, 3, ["Vadpress", "Calf raise"]⟩,
     ⟨"Kabel-crunch", false, 3, ["Kabel-crunch", "Cable crunch"]⟩]
  else if day = "Upper B" then
    [⟨"Hantelpress plan bänk", true, 4, ["Hantelpress plan bänk", "Hantelpress"]⟩,
     ⟨"Kabel-flyes (hög→låg)", false, 3, ["Kabel-flyes (hög→låg)", "Kabel-flyes hög", "Kabel flyes hög"]⟩,
     ⟨"Enarms kabelpress", false, 3, ["Enarms kabelpress", "Kabelpress"]⟩,
     ⟨"Sittande kabelrodd", false, 3, ["Sittande kabelrodd", "Kabelrodd"]⟩,
     ⟨"Face pull", false, 3, ["Face pull", "Facepull"]⟩,
     ⟨"Axelpress hantlar", false, 3, ["Axelpress hantlar", "Axelpress"]⟩,
     ⟨"Bicepscurl hantlar", false, 3, ["Bicepscurl hantlar", "Bicepscurl"]⟩]
  else if day = "Lower B" then
    [⟨"Marklyft", true, 3, ["Marklyft", "Mark"]⟩,
     ⟨"Goblet squat", true, 3, ["Goblet squat", "Goblet", "Frontböj", "Front squat"]⟩,
     ⟨"Hip thrust", true, 4, ["Hip thrust", "Hipthrust"]⟩,
     ⟨"Bulgarian split squat", false, 3, ["Bulgarian split squat", "Bulgarian"]⟩,
     ⟨"Vadpress", false, 3, ["Vadpress", "Calf raise"]⟩,
     ⟨"Kabel woodchop", false, 3, ["Kabel woodchop", "Woodchop"]⟩]
  else []

/-- Embeds `_block_for_week` (src/app.py lines 481-484). -/
def block_for_week (week : ℕ) : String :=
  if week ≤ 8 then "Hypertrofi"
  else if 9 ≤ week ∧ week ≤ 11 then "Styrka"
  else "Deload"

/-- Embeds the rep-range assignment of `seed_program`
(src/app.py lines 500-503). -/
def rep_range_for (block : String) (is_base : Bool) : ℤ × ℤ :=
  if block = "Hypertrofi" ∨ block = "Deload" then
    if is_base then (6, 10) else (8, 12)
  else
    if is_base then (3, 5) else (6, 8)

/-- Embeds the set-count adjustment of `seed_program`
(src/app.py lines 506-512). -/
def sets_out_for (block : String) (is_base : Bool) (sets_n : ℤ) : ℤ :=
  let s := if block = "Styrka" ∧ is_base = false then max 2 (sets_n - 1) else sets_n
  if block = "Deload" then max 2 (pyRound ((sets_n : ℚ) * (3/5))) else s

/-- Row of the `program_weeks` table produced by the generator. -/
structure ProgRow where
  week : ℕ
  day : String
  exercise_id : String
  sets : ℤ
  rep_min : ℤ
  rep_max : ℤ
deriving Repr, DecidableEq

/-- Embeds the row-generation loop of `seed_program` (src/app.py lines
486-529): for each week 1..12, pick the template, resolve each template row
against the exercise catalog (skipping unresolved rows), and emit the
block-transformed row.  `ex_rows` models the `exercises` table's
(name, id) pairs. -/
def seed_rows (ex_rows : List (String × String)) : List ProgRow :=
  let d := dict_of ex_rows
  (List.range' 1 12).flatMap fun week =>
    let block := block_for_week week
    let tpl := if week ≤ 4 then base_template
               else if week ≤ 8 then var_template else var_template
    DAY_CANON.flatMap fun day =>
      (tpl day).filterMap fun row =>
        match (resolve d row.aliases).orElse (fun _ => dict_find d row.name) with
        | none => none
        | some ex_id =>
          some ⟨week, day, ex_id, sets_out_for block row.is_base row.sets_n,
                (rep_range_for block row.is_base).1,
                (rep_range_for block row.is_base).2⟩

/-! ### Session persistence (today_form submit handler, src/app.py lines
306-370) and manual program edits (lines 569-603) -/

/-- Row of the `sets` table. -/
structure SetRow where
  workout_id : ℕ
  exercise_id : String
  set_no : ℕ
  reps : ℤ
  weight_kg : ℚ
  pr_flag : Bool
deriving Repr, DecidableEq

/-- Row of the `workouts` table; ids are modelled as consecutive naturals. -/
structure Workout where
  id : ℕ
  date : String
  day_label : String
deriving Repr, DecidableEq

/-- State of the persistent store as far as session saving touches it. -/
structure Store where
  workouts : List Workout
  sets : List SetRow
deriving Repr, DecidableEq

/-- One entry of the `collected` list of the submit handler:
(exercise_id, name, sets, reps per set, weight). -/
structure Collected where
  exercise_id : String
  name : String
  sets_n : ℤ
  reps_val : List ℤ
  weight : ℚ
deriving Repr, DecidableEq

/-- Embeds `personal_bests_map` lookup with default 0 (src/app.py lines
159-171 and 348): the maximum reps ever recorded for this
(exercise, weight) pair. -/
def best_reps (sets : List SetRow) (ex_id : String) (w : ℚ) : ℤ :=
  sets.foldl (fun acc s =>
    if s.exercise_id = ex_id ∧ s.weight_kg = w then max acc s.reps else acc) 0

/-- Embeds the `to_insert` construction of the submit handler (src/app.py
lines 345-358): one `sets` row per performed set, numbered from 1, with the
PR flag set when any set beats the stored best for that exercise/weight. -/
def to_insert_rows (db_sets : List SetRow) (wid : ℕ) (collected : List Collected) : List SetRow :=
  collected.flatMap fun c =>
    let prev := best_reps db_sets c.exercise_id c.weight
    let pr := c.reps_val.any fun rv => decide (prev < rv)
    (c.reps_val.enumFrom 1).map fun p =>
      ⟨wid, c.exercise_id, p.1, p.2, c.weight, pr⟩

/-- Embeds the submit handler of `today_form` (src/app.py lines 336-370):
the workout header row is inserted first; then the set rows are inserted in
one call.  `sets_write_ok` models whether that second call succeeds; on
failure the exception is caught and the store is left as it was after the
header insert. -/
def save_workout (db : Store) (dt day : String) (collected : List Collected)
    (sets_write_ok : Bool) : Store :=
  let wid := db.workouts.length
  let db1 : Store := ⟨db.workouts ++ [⟨wid, dt, day⟩], db.sets⟩
  let rows := to_insert_rows db.sets wid collected
  if rows.isEmpty then db1
  else if sets_write_ok then ⟨db1.workouts, db1.sets ++ rows⟩ else db1

/-- One row of a manual program-edit form submission. -/
structure ProgEdit where
  exercise_id : String
  sets : ℤ
  rep_min : ℤ
  rep_max : ℤ
deriving Repr, DecidableEq

/-- Embeds the program edit form handler (src/app.py lines 569-603): if any
row has `rep_max < rep_min` the whole form is invalid and nothing is
written; otherwise each edit updates the matching (week, day, exercise)
rows. -/
def apply_program_edits (rows : List ProgRow) (week : ℕ) (day : String)
    (edits : List ProgEdit) : List ProgRow :=
  if edits.any (fun e => decide (e.rep_max < e.rep_min)) then rows
  else
    edits.foldl (fun acc e =>
      acc.map fun r =>
        if r.week = week ∧ r.day = day ∧ r.exercise_id = e.exercise_id then
          ⟨r.week, r.day, r.exercise_id, e.sets, e.rep_min, e.rep_max⟩
        else r) rows

/-! ### Supporting lemmas -/

lemma pymax_eq_left {a b : ℚ} (h : b ≤ a) : pymax a b = a := by
  simp [pymax, h]

lemma pymax_eq_right {a b : ℚ} (h : a ≤ b) : pymax a b = b := by
  rcases eq_or_lt_of_le h with rfl | hlt
  · simp [pymax]
  · simp [pymax, not_le.2 hlt]

lemma pyRound_nonneg {q : ℚ} (h : 0 ≤ q) : 0 ≤ pyRound q := by
  have hf : (0 : ℤ) ≤ ⌊q⌋ := Int.floor_nonneg.2 h
  unfold pyRound
  dsimp only
  split
  · exact hf
  · split
    · omega
    · split <;> omega

lemma pyRound_nonpos {q : ℚ} (h : q ≤ 0) : pyRound q ≤ 0 := by
  have hf : (⌊q⌋ : ℚ) ≤ q := Int.floor_le q
  unfold pyRound
  dsimp only
  split
  · exact_mod_cast hf.trans h
  · rename_i h1
    push_neg at h1
    have hlt : (⌊q⌋ : ℚ) ≤ q - 1/2 := by linarith
    have h2 : (⌊q⌋ : ℚ) < 0 := lt_of_le_of_lt (by linarith) (show -(1/2 : ℚ) < 0 by norm_num)
    have hz : ⌊q⌋ < 0 := by exact_mod_cast h2
    split
    · omega
    · split <;> omega

lemma rnd1_nonneg {q : ℚ} (h : 0 ≤ q) : 0 ≤ rnd1 q := by
  unfold rnd1
  have : (0 : ℤ) ≤ pyRound (q * 10) := pyRound_nonneg (by positivity)
  positivity

lemma rnd1_nonpos {q : ℚ} (h : q ≤ 0) : rnd1 q ≤ 0 := by
  unfold rnd1
  have h10 : q * 10 ≤ 0 := by linarith
  have hp : pyRound (q * 10) ≤ 0 := pyRound_nonpos h10
  have : (pyRound (q * 10) : ℚ) ≤ 0 := by exact_mod_cast hp
  linarith

lemma rnd1_zero : rnd1 0 = 0 := by
  have h1 : rnd1 0 ≤ 0 := rnd1_nonpos le_rfl
  have h2 : 0 ≤ rnd1 0 := rnd1_nonneg le_rfl
  linarith

/-- The fused streak walk of the source equals the spec-side
filter-then-take-while description. -/
lemma under_min_streak_eq_spec (n : String) (m : ℤ) (hist : List HEntry) :
    under_min_streak n m hist = streak_spec n m hist := by
  simp only [streak_spec]
  induction hist with
  | nil => rfl
  | cons h t ih =>
    by_cases he : h.exercise = n
    · by_cases hr : (h.reps.all fun r => decide (r < m)) = true
      · simpa [under_min_streak, List.filter_cons, List.takeWhile_cons, he, hr] using ih
      · simp [under_min_streak, List.filter_cons, List.takeWhile_cons, he, hr]
    · simpa [under_min_streak, List.filter_cons, he] using ih

/-- When no history entry matches the exercise, the streak walk counts
nothing. -/
lemma under_min_streak_of_find?_none {n : String} {m : ℤ} :
    ∀ hist : List HEntry, hist.find? (fun e => e.exercise = n) = none →
      under_min_streak n m hist = 0 := by
  intro hist
  induction hist with
  | nil => intro _; rfl
  | cons e t ih =>
    intro h
    by_cases he : e.exercise = n
    · rw [List.find?_cons_of_pos _ (by simpa using he)] at h
      exact Option.noConfusion h
    · rw [List.find?_cons_of_neg _ (by simpa using he)] at h
      simp only [under_min_streak, if_neg he]
      exact ih h

/-- When a history entry matches the exercise, the baseline is its recorded
weight and the cue catalog is not consulted. -/
lemma baseline_of_find?_some {n : String} {hist : List HEntry} {e : HEntry}
    (exs : List Exercise) (h : hist.find? (fun x => x.exercise = n) = some e) :
    baseline_of exs n hist = e.weight := by
  unfold baseline_of
  rw [h]

/-- The reps window used by the bump rule, when a history entry matches. -/
lemma last_sets_of_find?_some {n : String} {hist : List HEntry} {e : HEntry}
    (h : hist.find? (fun x => x.exercise = n) = some e) :
    last_sets_of n hist = e.reps := by
  unfold last_sets_of
  rw [h]

/-! ### Claims -/

/-- C1: on history [Knäböj at 80 kg with sets 10,10,10,10] and rep range
6-10, the proposal for week index 7 is 85.0 (baseline 80 plus the 5.0
lower-body bump, no deload) and for week index 11 it is 51.0
(85.0 times 0.6 after deload), whatever the exercise catalog holds. -/
theorem propose_weight_knaboj_scenarios :
    ∀ exs : List Exercise,
      propose_weight exs "Knäböj" 6 10 7 [⟨"Knäböj", 80, [10, 10, 10, 10]⟩] = 85 ∧
      propose_weight exs "Knäböj" 6 10 11 [⟨"Knäböj", 80, [10, 10, 10, 10]⟩] = 51 := by
  intro exs
  have hf : ([⟨"Knäböj", 80, [10, 10, 10, 10]⟩] : List HEntry).find?
      (fun x => x.exercise = "Knäböj") = some ⟨"Knäböj", 80, [10, 10, 10, 10]⟩ := rfl
  constructor <;>
    · unfold propose_weight
      rw [baseline_of_find?_some exs hf]
      with_unfolding_all decide

/-- C2: the backoff walk equals the spec's description (count the streak of
consecutive most-recent sessions of this exercise whose sets are all
strictly below rep_min, stopping at the first matching session breaking the
pattern), and the proposal multiplies the baseline by 0.95 rounded to one
decimal exactly when that streak reaches 2, leaving it unchanged on a
shorter streak. -/
theorem backoff_streak_rule :
    ∀ (exs : List Exercise) (n : String) (rmin rmax widx : ℤ) (hist : List HEntry),
      under_min_streak n rmin hist = streak_spec n rmin hist ∧
      propose_weight exs n rmin rmax widx hist =
        pymax (apply_deload widx (apply_bump n rmax hist
          (if 2 ≤ streak_spec n rmin hist
           then rnd1 (baseline_of exs n hist * (19/20))
           else baseline_of exs n hist))) 0 := by
  intro exs n rmin rmax widx hist
  refine ⟨under_min_streak_eq_spec n rmin hist, ?_⟩
  rw [propose_weight, apply_backoff, under_min_streak_eq_spec]

/-- When a history entry matches the exercise with a non-empty reps list all
at or above `rep_max`, the bump step adds the increment. -/
lemma apply_bump_fires {n : String} {rmax : ℤ} {hist : List HEntry} {e : HEntry}
    (hf : hist.find? (fun x => x.exercise = n) = some e)
    (hne : e.reps ≠ []) (hge : ∀ r ∈ e.reps, rmax ≤ r) (w : ℚ) :
    apply_bump n rmax hist w = rnd1 (w + double_progression_bump n) := by
  unfold apply_bump
  rw [last_sets_of_find?_some hf]
  have h1 : e.reps.isEmpty = false := by
    cases hr : e.reps <;> simp_all [List.isEmpty]
  have h2 : (e.reps.all fun r => decide (rmax ≤ r)) = true := by
    simpa [List.all_eq_true] using hge
  simp [h1, h2]

/-- Without a matching history entry the bump step is the identity. -/
lemma apply_bump_of_find?_none {n : String} {rmax : ℤ} {hist : List HEntry}
    (hf : hist.find? (fun x => x.exercise = n) = none) (w : ℚ) :
    apply_bump n rmax hist w = w := by
  unfold apply_bump last_sets_of
  rw [hf]
  rfl

/-- When the most recent matching entry has an empty reps list, the bump
step is the identity. -/
lemma apply_bump_of_empty_reps {n : String} {rmax : ℤ} {hist : List HEntry} {e : HEntry}
    (hf : hist.find? (fun x => x.exercise = n) = some e)
    (hre : e.reps = []) (w : ℚ) :
    apply_bump n rmax hist w = w := by
  unfold apply_bump
  rw [last_sets_of_find?_some hf, hre]
  rfl

/-- C3: when every set of the single most recent session for the exercise
reached rep_max (non-empty reps list), the proposal adds a fixed increment
to the backoff-adjusted baseline, rounded to one decimal: 5.0 when the name
matches a lower-body keyword, else 2.5; the bump applies after the backoff
(both can fire in one call, as the witness shows). -/
theorem bump_rule :
    ∀ (exs : List Exercise) (n : String) (rmin rmax widx : ℤ)
      (hist : List HEntry) (e : HEntry),
      hist.find? (fun x => x.exercise = n) = some e →
      e.reps ≠ [] →
      (∀ r ∈ e.reps, rmax ≤ r) →
      propose_weight exs n rmin rmax widx hist =
        pymax (apply_deload widx
          (rnd1 (apply_backoff n rmin hist (baseline_of exs n hist) +
                 (if is_lower_body n then 5 else 5/2)))) 0 := by
  intro exs n rmin rmax widx hist e hf hne hge
  unfold propose_weight
  rw [apply_bump_fires hf hne hge]
  simp [double_progression_bump]

/-- Witness for C3, with backoff and bump firing in the same call
(possible when rep_max lies below rep_min). -/
theorem bump_rule_witness :
    2 ≤ under_min_streak "Knäböj" 10 [⟨"Knäböj", 80, [7, 7]⟩, ⟨"Knäböj", 80, [7, 7]⟩] ∧
    propose_weight [] "Knäböj" 10 5 0 [⟨"Knäböj", 80, [7, 7]⟩, ⟨"Knäböj", 80, [7, 7]⟩] = 81 := by
  constructor
  · decide
  · rw [bump_rule [] "Knäböj" 10 5 0
      [⟨"Knäböj", 80, [7, 7]⟩, ⟨"Knäböj", 80, [7, 7]⟩] ⟨"Knäböj", 80, [7, 7]⟩
      rfl (by decide) (by decide)]
    with_unfolding_all decide

/-- C4: with no history entry for the exercise, neither backoff nor bump can
fire, so the proposal is the cue-derived starting weight (the baseline of
the source, which parses the first decimal number out of the cue text and
defaults to 0) passed through the deload step; concretely, a cue containing
"Startvikt 20 kg" yields 20.0 and a cue without a number yields 0. -/
theorem no_history_start_weight :
    ∀ (exs : List Exercise) (n : String) (rmin rmax widx : ℤ) (hist : List HEntry),
      hist.find? (fun x => x.exercise = n) = none →
      (propose_weight exs n rmin rmax widx hist =
        pymax (apply_deload widx (baseline_of exs n hist)) 0) ∧
      propose_weight [⟨"NewLift", some "Startvikt 20 kg"⟩] "NewLift" 8 12 0 [] = 20 ∧
      propose_weight [⟨"NewLift", some "utan siffror"⟩] "NewLift" 8 12 0 [] = 0 := by
  intro exs n rmin rmax widx hist hf
  refine ⟨?_, by with_unfolding_all decide, by with_unfolding_all decide⟩
  unfold propose_weight
  rw [apply_bump_of_find?_none hf]
  unfold apply_backoff
  rw [under_min_streak_of_find?_none hist hf]
  norm_num

/-- Witness for C4. -/
theorem no_history_start_weight_witness :
    ([] : List HEntry).find? (fun x => x.exercise = "NewLift") = none ∧
    propose_weight [⟨"NewLift", some "Startvikt 20 kg"⟩] "NewLift" 8 12 0 [] = 20 := by
  refine ⟨rfl, ?_⟩
  exact (no_history_start_weight [] "NewLift" 8 12 0 [] rfl).2.1

/-- C5: for any inputs and any week index other than 11, the week-11
proposal equals 0.6 times the other week's proposal, rounded at the same
one-decimal granularity; no step besides the deload depends on the week. -/
theorem deload_factor :
    ∀ (exs : List Exercise) (n : String) (rmin rmax k : ℤ) (hist : List HEntry),
      k ≠ 11 →
      propose_weight exs n rmin rmax 11 hist =
        rnd1 ((3/5) * propose_weight exs n rmin rmax k hist) := by
  intro exs n rmin rmax k hist hk
  unfold propose_weight apply_deload
  set w2 := apply_bump n rmax hist (apply_backoff n rmin hist (baseline_of exs n hist))
    with hw2
  rw [if_pos (by norm_num : (11 : ℤ) + 1 = 12), if_neg (by omega : ¬ (k + 1 = 12))]
  rcases le_or_lt 0 w2 with hw | hw
  · rw [pymax_eq_left hw, pymax_eq_left (rnd1_nonneg (by linarith : (0:ℚ) ≤ w2 * (3/5))),
      mul_comm]
  · rw [pymax_eq_right hw.le, mul_zero, rnd1_zero]
    exact pymax_eq_right (rnd1_nonpos (by nlinarith : w2 * (3/5) ≤ 0))

/-- Witness for C5 at week index 7 on the Knäböj history. -/
theorem deload_factor_witness :
    (7 : ℤ) ≠ 11 ∧
    propose_weight [] "Knäböj" 6 10 11 [⟨"Knäböj", 80, [10, 10, 10, 10]⟩] =
      rnd1 ((3/5) * propose_weight [] "Knäböj" 6 10 7 [⟨"Knäböj", 80, [10, 10, 10, 10]⟩]) :=
  ⟨by decide, deload_factor [] "Knäböj" 6 10 7 [⟨"Knäböj", 80, [10, 10, 10, 10]⟩] (by decide)⟩

/-- C6 as stated fails on the code: when the set-records insert fails after
the header insert, the store holds a workout header with no set rows. -/
theorem save_atomicity_cex :
    ∃ w ∈ (save_workout ⟨[], []⟩ "2026-01-05" "Lower A"
            [⟨"e1", "Knäböj", 1, [10], 80⟩] false).workouts,
      ∀ s ∈ (save_workout ⟨[], []⟩ "2026-01-05" "Lower A"
              [⟨"e1", "Knäböj", 1, [10], 80⟩] false).sets,
        s.workout_id ≠ w.id := by
  with_unfolding_all decide

/-- C6 amended: the submit handler writes the workout header first and the
set rows second; when the set-records write fails the header row survives
with the sets table unchanged (an orphaned session), and only when it
succeeds are all the computed set rows stored with the header. -/
theorem save_header_first :
    ∀ (db : Store) (dt day : String) (collected : List Collected) (ok : Bool),
      (⟨db.workouts.length, dt, day⟩ : Workout) ∈
        (save_workout db dt day collected ok).workouts ∧
      (ok = false → (save_workout db dt day collected ok).sets = db.sets) ∧
      (ok = true → (save_workout db dt day collected ok).sets =
        db.sets ++ to_insert_rows db.sets db.workouts.length collected) := by
  intro db dt day collected ok
  have hw : (save_workout db dt day collected ok).workouts =
      db.workouts ++ [⟨db.workouts.length, dt, day⟩] := by
    unfold save_workout
    dsimp only
    split
    · rfl
    · split <;> rfl
  refine ⟨by rw [hw]; simp, ?_, ?_⟩
  · intro hok
    subst hok
    unfold save_workout
    dsimp only
    split
    · rfl
    · simp
  · intro hok
    subst hok
    unfold save_workout
    dsimp only
    split
    · rename_i hemp
      rw [List.isEmpty_iff] at hemp
      rw [hemp, List.append_nil]
    · simp

/-- Witness for the amended C6: a concrete failing save leaves the header
and an empty sets table. -/
theorem save_header_first_witness :
    (⟨0, "2026-01-05", "Lower A"⟩ : Workout) ∈
      (save_workout ⟨[], []⟩ "2026-01-05" "Lower A"
        [⟨"e1", "Knäböj", 1, [10], 80⟩] false).workouts ∧
    (save_workout ⟨[], []⟩ "2026-01-05" "Lower A"
      [⟨"e1", "Knäböj", 1, [10], 80⟩] false).sets = [] :=
  ⟨(save_header_first ⟨[], []⟩ "2026-01-05" "Lower A"
      [⟨"e1", "Knäböj", 1, [10], 80⟩] false).1,
   (save_header_first ⟨[], []⟩ "2026-01-05" "Lower A"
      [⟨"e1", "Knäböj", 1, [10], 80⟩] false).2.1 rfl⟩

/-- C7 as stated fails on the code: with no matching history entry the
function queries the exercises table for the cue, so two calls with
identical five arguments can return different weights when that table
differs — the result is not a function of the five arguments alone. -/
theorem propose_weight_catalog_dependence :
    propose_weight [⟨"NewLift", some "Startvikt 20 kg"⟩] "NewLift" 8 12 0 [] ≠
    propose_weight [⟨"NewLift", some "Startvikt 30 kg"⟩] "NewLift" 8 12 0 [] := by
  with_unfolding_all decide

/-- C7 amended: the proposal is a deterministic function of the five
arguments and the exercises catalog, and whenever the history holds an
entry for the exercise, the catalog is not consulted, so the result depends
on the five arguments alone. -/
theorem propose_weight_catalog_independent_on_history :
    ∀ (exs exs' : List Exercise) (n : String) (rmin rmax widx : ℤ)
      (hist : List HEntry) (e : HEntry),
      hist.find? (fun x => x.exercise = n) = some e →
      propose_weight exs n rmin rmax widx hist =
        propose_weight exs' n rmin rmax widx hist := by
  intro exs exs' n rmin rmax widx hist e hf
  unfold propose_weight
  rw [baseline_of_find?_some exs hf, baseline_of_find?_some exs' hf]

/-- Witness for the amended C7. -/
theorem propose_weight_catalog_independent_on_history_witness :
    ([⟨"Knäböj", 80, [10, 10, 10, 10]⟩] : List HEntry).find?
      (fun x => x.exercise = "Knäböj") = some ⟨"Knäböj", 80, [10, 10, 10, 10]⟩ ∧
    propose_weight [⟨"Knäböj", some "Startvikt 60 kg"⟩] "Knäböj" 6 10 0
        [⟨"Knäböj", 80, [10, 10, 10, 10]⟩] =
      propose_weight [] "Knäböj" 6 10 0 [⟨"Knäböj", 80, [10, 10, 10, 10]⟩] :=
  ⟨rfl, propose_weight_catalog_independent_on_history
    [⟨"Knäböj", some "Startvikt 60 kg"⟩] [] "Knäböj" 6 10 0
    [⟨"Knäböj", 80, [10, 10, 10, 10]⟩] ⟨"Knäböj", 80, [10, 10, 10, 10]⟩ rfl⟩

/-- C10: a matching history entry with an empty reps list counts toward the
under-rep_min streak (the all-below test is vacuously true on no sets), yet
the bump never fires when the most recent matching entry has an empty reps
list, for every rep range and week index. -/
theorem empty_reps_streak_no_bump :
    ∀ (exs : List Exercise) (n : String) (rmin rmax widx : ℤ)
      (h : HEntry) (t hist : List HEntry),
      (h.exercise = n → h.reps = [] →
        under_min_streak n rmin (h :: t) = under_min_streak n rmin t + 1) ∧
      (hist.find? (fun x => x.exercise = n) = some h → h.reps = [] →
        propose_weight exs n rmin rmax widx hist =
          pymax (apply_deload widx
            (apply_backoff n rmin hist (baseline_of exs n hist))) 0) := by
  intro exs n rmin rmax widx h t hist
  constructor
  · intro he hr
    simp [under_min_streak, he, hr]
  · intro hf hr
    unfold propose_weight
    rw [apply_bump_of_empty_reps hf hr]

/-- Witness for C10: two empty-reps sessions make the streak reach 2, the
backoff fires, and the bump does not (50 → 47.5 despite the vacuous
"all sets at rep_max" condition). -/
theorem empty_reps_streak_no_bump_witness :
    under_min_streak "X" 5 [⟨"X", 50, []⟩, ⟨"X", 50, []⟩] =
      under_min_streak "X" 5 [⟨"X", 50, []⟩] + 1 ∧
    propose_weight [] "X" 5 8 0 [⟨"X", 50, []⟩, ⟨"X", 50, []⟩] = 95/2 := by
  refine ⟨(empty_reps_streak_no_bump [] "X" 5 8 0 ⟨"X", 50, []⟩ [⟨"X", 50, []⟩]
    [⟨"X", 50, []⟩, ⟨"X", 50, []⟩]).1 rfl rfl, ?_⟩
  rw [(empty_reps_streak_no_bump [] "X" 5 8 0 ⟨"X", 50, []⟩ [⟨"X", 50, []⟩]
    [⟨"X", 50, []⟩, ⟨"X", 50, []⟩]).2 rfl rfl]
  with_unfolding_all decide

/-- Away from exact halves, the embedded banker's rounding agrees with
rounding to the nearest integer. -/
lemma pyRound_eq_round {q : ℚ} (h : Int.fract q ≠ 1/2) : pyRound q = round q := by
  have h' : q - (⌊q⌋ : ℚ) ≠ 1/2 := by unfold Int.fract at h; exact h
  have hfl : (⌊q⌋ : ℚ) ≤ q := Int.floor_le q
  have hlt : q < ⌊q⌋ + 1 := Int.lt_floor_add_one q
  rw [round_eq]
  unfold pyRound
  dsimp only
  rcases lt_trichotomy (q - (⌊q⌋ : ℚ)) (1/2) with hc | hc | hc
  · rw [if_pos hc]
    symm
    rw [Int.floor_eq_iff]
    constructor <;> push_cast <;> linarith
  · exact absurd hc h'
  · rw [if_neg (by linarith), if_pos hc]
    symm
    rw [Int.floor_eq_iff]
    constructor <;> push_cast <;> linarith

/-- 0.6 times an integer never lands on an exact half. -/
lemma fract_mul35_ne_half (n : ℤ) : Int.fract ((n : ℚ) * (3/5)) ≠ 1/2 := by
  intro h
  have h' : (n : ℚ) * (3/5) - (⌊(n : ℚ) * (3/5)⌋ : ℚ) = 1/2 := by
    unfold Int.fract at h; exact h
  have h2 : (6 * n : ℚ) = 10 * (⌊(n : ℚ) * (3/5)⌋ : ℚ) + 5 := by linarith
  have h3 : (6 * n : ℤ) = 10 * ⌊(n : ℚ) * (3/5)⌋ + 5 := by exact_mod_cast h2
  omega

/-- C8: the per-block transformation of seed_program: Hypertrophy and
Deload weeks give rep range (6,10) for base lifts and (8,12) otherwise,
Strength weeks give (3,5)/(6,8); the set count is the template count in
Hypertrophy, reduced by 1 with floor 2 for non-base lifts in Strength, and
scaled by 0.6 rounded to the nearest integer with floor 2 in Deload — a
3-set template row yielding exactly 2 sets in week 12. -/
theorem block_transform_rules :
    ∀ (week : ℕ) (isb : Bool) (n : ℤ),
      1 ≤ week → week ≤ 12 →
      ((week ≤ 8 ∨ week = 12) →
        rep_range_for (block_for_week week) isb = if isb then (6, 10) else (8, 12)) ∧
      (9 ≤ week → week ≤ 11 →
        rep_range_for (block_for_week week) isb = if isb then (3, 5) else (6, 8)) ∧
      (week ≤ 8 → sets_out_for (block_for_week week) isb n = n) ∧
      (9 ≤ week → week ≤ 11 →
        sets_out_for (block_for_week week) isb n = if isb then n else max 2 (n - 1)) ∧
      (week = 12 →
        sets_out_for (block_for_week week) isb n = max 2 (round ((n : ℚ) * (3/5)))) ∧
      (week = 12 → sets_out_for (block_for_week week) isb 3 = 2) := by
  intro week isb n h1 h2
  have hstyrka : 9 ≤ week → week ≤ 11 → block_for_week week = "Styrka" := by
    intro h9 h11
    unfold block_for_week
    rw [if_neg (by omega), if_pos ⟨h9, h11⟩]
  refine ⟨?_, ?_, ?_, ?_, ?_, ?_⟩
  · rintro (hc | rfl)
    · have hb : block_for_week week = "Hypertrofi" := by
        unfold block_for_week
        rw [if_pos hc]
      rw [hb]
      cases isb <;> rfl
    · cases isb <;> rfl
  · intro h9 h11
    rw [hstyrka h9 h11]
    cases isb <;> rfl
  · intro hc
    have hb : block_for_week week = "Hypertrofi" := by
      unfold block_for_week
      rw [if_pos hc]
    rw [hb]
    cases isb <;> rfl
  · intro h9 h11
    rw [hstyrka h9 h11]
    cases isb <;> rfl
  · rintro rfl
    have hd : sets_out_for (block_for_week 12) isb n =
        max 2 (pyRound ((n : ℚ) * (3/5))) := by
      cases isb <;> rfl
    rw [hd, pyRound_eq_round (fract_mul35_ne_half n)]
  · rintro rfl
    cases isb <;> with_unfolding_all decide

/-- Witness for C8 at the Deload week on a 3-set non-base template row. -/
theorem block_transform_rules_witness :
    (1 : ℕ) ≤ 12 ∧ sets_out_for (block_for_week 12) false 3 = 2 :=
  ⟨by decide,
   (block_transform_rules 12 false 3 (by decide) (by decide)).2.2.2.2.2 rfl⟩

/-- The rep range emitted for any block and base-lift flag is ordered. -/
lemma rep_range_le (block : String) (isb : Bool) :
    (rep_range_for block isb).1 ≤ (rep_range_for block isb).2 := by
  unfold rep_range_for
  split <;> cases isb <;> norm_num

/-- C9: every row generated by seed_program satisfies rep_min ≤ rep_max,
for any exercise catalog, and a manual program edit in which some row has
rep_max < rep_min is rejected before any write, leaving the stored schedule
unchanged. -/
theorem rep_range_invariant :
    (∀ ex_rows : List (String × String), ∀ r ∈ seed_rows ex_rows,
      r.rep_min ≤ r.rep_max) ∧
    (∀ (rows : List ProgRow) (week : ℕ) (day : String) (edits : List ProgEdit),
      (∃ e ∈ edits, e.rep_max < e.rep_min) →
      apply_program_edits rows week day edits = rows) := by
  constructor
  · intro ex_rows r hr
    simp only [seed_rows, List.mem_flatMap, List.mem_filterMap] at hr
    obtain ⟨week, _, day, _, row, _, hres⟩ := hr
    rcases hid : (resolve (dict_of ex_rows) row.aliases).orElse
        (fun _ => dict_find (dict_of ex_rows) row.name) with _ | ex_id
    · rw [hid] at hres
      exact absurd hres (by simp)
    · rw [hid] at hres
      simp only [Option.some.injEq] at hres
      rw [← hres]
      exact rep_range_le _ _
  · intro rows week day edits ⟨e, he, hlt⟩
    have hc : (edits.any fun e => decide (e.rep_max < e.rep_min)) = true := by
      simp only [List.any_eq_true]
      exact ⟨e, he, decide_eq_true hlt⟩
    unfold apply_program_edits
    rw [if_pos hc]

/-- Witness for C9: a generated week-1 Knäböj row has an ordered rep range,
and an invalid edit (rep_max 5 below rep_min 8) leaves the rows unchanged. -/
theorem rep_range_invariant_witness :
    (⟨1, "Lower A", "id1", 4, 6, 10⟩ : ProgRow) ∈ seed_rows [("Knäböj", "id1")] ∧
    (⟨1, "Lower A", "id1", 4, 6, 10⟩ : ProgRow).rep_min ≤
      (⟨1, "Lower A", "id1", 4, 6, 10⟩ : ProgRow).rep_max ∧
    (∃ e ∈ [(⟨"id1", 3, 8, 5⟩ : ProgEdit)], e.rep_max < e.rep_min) ∧
    apply_program_edits [⟨1, "Lower A", "id1", 4, 6, 10⟩] 1 "Lower A"
      [⟨"id1", 3, 8, 5⟩] = [⟨1, "Lower A", "id1", 4, 6, 10⟩] := by
  have hmem : (⟨1, "Lower A", "id1", 4, 6, 10⟩ : ProgRow) ∈
      seed_rows [("Knäböj", "id1")] := by
    with_unfolding_all decide
  exact ⟨hmem, rep_range_invariant.1 [("Knäböj", "id1")] _ hmem,
    ⟨⟨"id1", 3, 8, 5⟩, by decide, by decide⟩,
    rep_range_invariant.2 [⟨1, "Lower A", "id1", 4, 6, 10⟩] 1 "Lower A"
      [⟨"id1", 3, 8, 5⟩] ⟨⟨"id1", 3, 8, 5⟩, by decide, by decide⟩⟩

end Gymapp
